import Mathlib

/-!
Verification of the MegaDeviceBridge firmware (Tektronix TDS2024 parallel
port data acquisition bridge) against its natural-language specification.

The definitions below are a shallow embedding of the C++ source:

  * `SerialStoragePlugin` — the hex streaming protocol
    (src/src/storage/SerialStoragePlugin.cpp, first translation unit);
  * `EEPROMStoragePlugin` — the flat filesystem on the W25Q128 NOR flash
    (src/src/storage/SerialStoragePlugin.cpp, second translation unit);
  * `ParallelPortManager` and `RingBuffer` — the IEEE-1284 receiver;
  * `FileSystemManager` — storage routing, validation, and copy;
  * the main-loop capture path `processParallelPortData`.

Bytes are modelled as `Nat` values below 256, C strings as `List Nat`
(byte values, no NUL inside), machine integers as `Nat` with explicit
masking where overflow matters.  Filenames stored in the flat-filesystem
directory are the full fixed 8-byte buffers (`List Nat` of length 8),
mirroring `char filename[MAX_FILENAME_LENGTH]`.
-/

namespace MegaBridge

/-! ## Constants from include/HardwareConfig.h and the plugin headers -/

def EEPROM_SECTOR_SIZE : Nat := 4096
def EEPROM_PAGE_SIZE : Nat := 256
def TOTAL_SECTORS : Nat := 16777216 / EEPROM_SECTOR_SIZE
def DATA_START_SECTOR : Nat := 1
def MAX_FILES : Nat := 64
def MAX_FILENAME_LENGTH : Nat := 8
def TRANSFER_BUFFER_SIZE : Nat := 32
def STATUS_EMPTY : Nat := 0xFF
def STATUS_ACTIVE : Nat := 0xAA
def STATUS_DELETED : Nat := 0x55
def HEX_BYTES_PER_LINE : Nat := 32
def RING_BUFFER_SIZE : Nat := 96

/-! ## MemoryUtils (src/src/utils/MemoryUtils.cpp)

`safeStrlenB` is `safeStrlen` on a fixed-size byte buffer: the length of
the string up to the first NUL byte, capped at `maxLen`.  `toLowerB` is
ASCII `tolower` on a byte.  `equalsIgnoreCase` takes the LENGTH
argument `str1Len` exactly as the C function does: it first requires
`strlen(str2) == str1Len` and then compares `str1Len` characters. -/

def safeStrlenB : List Nat → Nat → Nat
  | _, 0 => 0
  | [], _ => 0
  | b :: rest, n + 1 => if b = 0 then 0 else safeStrlenB rest n + 1

def toLowerB (b : Nat) : Nat :=
  if 65 ≤ b ∧ b ≤ 90 then b + 32 else b

def equalsIgnoreCase (buf : List Nat) (str1Len : Nat) (str2 : List Nat) : Bool :=
  str2.length == str1Len &&
    (List.range str1Len).all (fun i => toLowerB (buf.getD i 0) == toLowerB (str2.getD i 0))

/-- `safeCopy(dest, destSize, src)` on a fixed `destSize`-byte buffer:
copies `min (src.length) (destSize - 1)` bytes, writes a NUL, and leaves
the tail of the old buffer contents untouched (the C function does not
zero the remainder).  `src` is assumed NUL-free. -/
def safeCopyB (dest : List Nat) (destSize : Nat) (src : List Nat) : List Nat :=
  let copyLen := min src.length (destSize - 1)
  src.take copyLen ++ [0] ++ dest.drop (copyLen + 1)

/-! ## SerialStoragePlugin — hex streaming protocol

The transmit side (`byteToHex`, `sendHexLine`, `streamFile`) and the
receive side (`hexToByte`, `receiveFile`) are translated with debug
output disabled (the default: `debugEnabled` is constructed false), so
no address prefixes and no PROGRESS lines are emitted. -/

namespace SerialStoragePlugin

/-- The hex digit table of `byteToHex`. -/
def hexCharTable : List Char :=
  "0123456789ABCDEF".toList

/-- `byteToHex`: two uppercase hex characters for one byte. -/
def byteToHex (b : Nat) : List Char :=
  [hexCharTable.getD ((b >>> 4) &&& 0x0F) '0', hexCharTable.getD (b &&& 0x0F) '0']

/-- One nibble of `hexToByte`: accepts 0-9, A-F, a-f (byte codes
48-57, 65-70, 97-102; the two letter ranges map to 10-15). -/
def hexNibble (c : Char) : Option Nat :=
  if 48 ≤ c.toNat ∧ c.toNat ≤ 57 then some (c.toNat - 48)
  else if 65 ≤ c.toNat ∧ c.toNat ≤ 70 then some (c.toNat - 55)
  else if 97 ≤ c.toNat ∧ c.toNat ≤ 102 then some (c.toNat - 87)
  else none

/-- `hexToByte`: decode a pair of hex characters, failing on any
non-hex character. -/
def hexToByte (c0 c1 : Char) : Option Nat :=
  match hexNibble c0, hexNibble c1 with
  | some n0, some n1 => some ((n0 <<< 4) ||| n1)
  | _, _ => none

/-- `appendString(dest, destSize, src)` on the line buffer: a no-op when
the buffer already holds `destSize - 1` characters, otherwise appends as
many characters of `src` as fit. -/
def appendStringM (destSize : Nat) (buf s : List Char) : List Char :=
  if destSize - 1 ≤ buf.length then buf
  else buf ++ s.take (destSize - 1 - buf.length)

/-- The byte loop of `sendHexLine`: hex-encode each byte into the
64-char line buffer, inserting one space after every 8 bytes except
after the last byte of the line. -/
def hexLineLoop (destSize : Nat) (buf : List Char) (i size : Nat) : List Nat → List Char
  | [] => buf
  | b :: rest =>
      let buf1 := appendStringM destSize buf (byteToHex b)
      let buf2 :=
        if (i + 1) % 8 == 0 && decide (i < size - 1) then
          appendStringM destSize buf1 [' ']
        else buf1
      hexLineLoop destSize buf2 (i + 1) size rest

/-- The CRLF line terminator (`PROTOCOL_CRLF`). -/
def CRLF : List Char := ['\r', '\n']

/-- The reserved line marker `PROTOCOL_BEGIN` = "BEGIN:". -/
def BEGIN_TOK : List Char := ['B', 'E', 'G', 'I', 'N', ':']

/-- The reserved line marker `PROTOCOL_SIZE` = "SIZE:". -/
def SIZE_TOK : List Char := ['S', 'I', 'Z', 'E', ':']

/-- The reserved line marker `PROTOCOL_END` = "END:". -/
def END_TOK : List Char := ['E', 'N', 'D', ':']

/-- `sendHexLine` with debug disabled: guard, then the encoded line
followed by CRLF.  The line buffer is 64 characters. -/
def sendHexLine (data : List Nat) : List Char :=
  if data.length == 0 || decide (HEX_BYTES_PER_LINE < data.length) then []
  else hexLineLoop 64 [] 0 data.length data ++ CRLF

/-- Structural-recursion core of the `streamFile` chunking loop: the
fuel parameter bounds the number of iterations; since every iteration
consumes at least one byte, fuel equal to the byte count is always
enough (`streamChunksAux_fuel`). -/
def streamChunksAux : Nat → List Nat → List Char
  | 0, _ => []
  | _, [] => []
  | fuel + 1, b :: rest =>
      sendHexLine ((b :: rest).take (min (rest.length + 1) HEX_BYTES_PER_LINE)) ++
        streamChunksAux fuel ((b :: rest).drop (min (rest.length + 1) HEX_BYTES_PER_LINE))

/-- The chunking loop of `streamFile`: slices of at most
`HEX_BYTES_PER_LINE` bytes, each emitted by `sendHexLine`.  Progress
pings are suppressed because debug output is disabled. -/
def streamChunks (data : List Nat) : List Char :=
  streamChunksAux data.length data

/-- `sendProtocolHeader`: BEGIN and SIZE lines (the size rendered in
decimal). -/
def protocolHeader (name : List Char) (size : Nat) : List Char :=
  BEGIN_TOK ++ name ++ CRLF ++ SIZE_TOK ++ (toString size).toList ++ CRLF

/-- `sendProtocolFooter`: the END line. -/
def protocolFooter (name : List Char) : List Char :=
  END_TOK ++ name ++ CRLF

/-- `streamFile` (reached from `writeFile`) with the plugin ready and no
transfer in progress: the full character stream put on the serial link. -/
def streamFile (name : List Char) (data : List Nat) : List Char :=
  if data.length == 0 then []
  else protocolHeader name data.length ++ streamChunks data ++ protocolFooter name

/-- `startsWith(str, strLen, prefixStr)` from MemoryUtils on NUL-free
lines: a plain list prefix test. -/
def startsWithM (s p : List Char) : Bool :=
  p.isPrefixOf s

/-- `findChar`: index of the first occurrence of a character. -/
def findCharIdx : List Char → Char → Option Nat
  | [], _ => none
  | c :: rest, ch =>
      if c = ch then some 0 else (findCharIdx rest ch).map (· + 1)

/-- The hex-pair loop of `receiveFile`: steps through the line two
characters at a time (`i += 2`), appending a byte when `hexToByte`
succeeds, silently skipping the pair otherwise, and stopping when fewer
than two characters remain or the destination is full. -/
def decodeHexPairs (maxSize : Nat) (acc : List Nat) : List Char → List Nat
  | c0 :: c1 :: rest =>
      if acc.length < maxSize then
        match hexToByte c0 c1 with
        | some b => decodeHexPairs maxSize (acc ++ [b]) rest
        | none => decodeHexPairs maxSize acc rest
      else acc
  | _ => acc

/-- The line handler of `receiveFile`: protocol lines (BEGIN:, END:,
SIZE:) are dropped; otherwise an optional address prefix up to and
including a colon and one extra character is skipped and the rest is
decoded as hex pairs. -/
def processLine (maxSize : Nat) (acc : List Nat) (line : List Char) : List Nat :=
  if startsWithM line BEGIN_TOK || startsWithM line END_TOK ||
     startsWithM line SIZE_TOK then acc
  else
    let hexStart :=
      match findCharIdx line ':' with
      | some j => line.drop (j + 2)
      | none => line
    decodeHexPairs maxSize acc hexStart

/-- The character loop of `receiveFile`: builds lines of at most 255
characters, handing each completed line to `processLine`.  Reading
stops as soon as the destination holds `maxSize` bytes; an exhausted
input plays the role of the timeout and returns what was decoded. -/
def receiveLoop (maxSize : Nat) : List Char → List Char → List Nat → List Nat
  | [], _, acc => acc
  | c :: rest, line, acc =>
      if maxSize ≤ acc.length then acc
      else if c = '\r' ∨ c = '\n' then
        if line.length ≠ 0 then receiveLoop maxSize rest [] (processLine maxSize acc line)
        else receiveLoop maxSize rest line acc
      else if line.length < 255 then receiveLoop maxSize rest (line ++ [c]) acc
      else receiveLoop maxSize rest line acc

/-- `receiveFile(data, maxSize, timeout)` on a given input character
stream. -/
def receiveFile (input : List Char) (maxSize : Nat) : List Nat :=
  if maxSize == 0 then [] else receiveLoop maxSize input [] []

/-- The hex rendering of a byte sequence with no space separators: the
contents of a data line holding at most 8 bytes. -/
def hexJoin (data : List Nat) : List Char :=
  (data.map byteToHex).flatten

end SerialStoragePlugin

/-! ## EEPROMStoragePlugin — flat filesystem on the W25Q128 NOR flash

The state carries the RAM directory mirror and the allocation pointer.
Flash traffic is recorded as a trace of driver operations
(`FlashOp.erase` for `eraseSector`, `FlashOp.prog` for `writePage`),
and hardware outcomes are supplied by two oracles `eraseOk`/`pageOk`
(the result of `waitForWriteComplete` for the given address), so both
the success path and the failure paths of the source are represented.
All fields of `FileEntry` are unsigned 32-bit (respectively byte)
quantities; the C bitwise NOT of the 32-bit size is `size ^^^
0xFFFFFFFF`. -/

namespace EEPROMStoragePlugin

/-- One slot of the on-chip directory (`struct FileEntry`): an 8-byte
name buffer, start sector, size, size complement, and status byte. -/
structure FileEntry where
  filename : List Nat
  startSector : Nat
  sizeBytes : Nat
  sizeComplement : Nat
  status : Nat
deriving DecidableEq

/-- The plugin state: directory mirror, next free sector, counters. -/
structure EState where
  directory : List FileEntry
  nextFreeSector : Nat
  totalFiles : Nat
  deletedFiles : Nat
deriving DecidableEq

/-- One low-level flash driver operation issued over SPI. -/
inductive FlashOp where
  | erase (sector : Nat)
  | prog (addr : Nat) (len : Nat)
deriving DecidableEq

/-- `eraseSector`: rejects an out-of-range sector without touching the
bus, otherwise issues the erase and reports the poll outcome. -/
def eraseSectorM (eraseOk : Nat → Bool) (sector : Nat) : Bool × List FlashOp :=
  if TOTAL_SECTORS ≤ sector then (false, [])
  else (eraseOk (sector * EEPROM_SECTOR_SIZE), [FlashOp.erase sector])

/-- `writePage`: guard on the chunk size, then one page program whose
completion is reported by the `pageOk` oracle at that address. -/
def writePageM (pageOk : Nat → Bool) (addr len : Nat) : Bool × List FlashOp :=
  if len == 0 || decide (EEPROM_PAGE_SIZE < len) then (false, [])
  else (pageOk addr, [FlashOp.prog addr len])

/-- Structural-recursion core of the page-write loops: the fuel
parameter bounds the number of iterations; since every iteration
consumes at least one byte of the remaining count, fuel equal to the
byte count is always enough. -/
def pageLoopAux (pageOk : Nat → Bool) : Nat → Nat → Nat → Bool × List FlashOp
  | 0, _, _ => (true, [])
  | fuel + 1, addr, remaining =>
      if remaining = 0 then (true, [])
      else
        let pageSize := min remaining EEPROM_PAGE_SIZE
        let w := writePageM pageOk addr pageSize
        if w.1 then
          let rest := pageLoopAux pageOk fuel (addr + pageSize) (remaining - pageSize)
          (rest.1, w.2 ++ rest.2)
        else (false, w.2)

/-- The page loop shared by `saveDirectory` (writing the 1536-byte
directory image from address 0) and `writeFile` (writing the payload
from the start of the allocated extent): page-sized chunks, stopping at
the first failed `writePage`. -/
def pageLoop (pageOk : Nat → Bool) (addr remaining : Nat) : Bool × List FlashOp :=
  pageLoopAux pageOk remaining addr remaining

/-- The byte size of the directory image (`sizeof(directory)`,
64 entries of 24 bytes each). -/
def DIRECTORY_BYTES : Nat := 1536

/-- `saveDirectory`: erase the directory sector, then write the mirror
back page by page. -/
def saveDirectory (eraseOk pageOk : Nat → Bool) : Bool × List FlashOp :=
  let e := eraseSectorM eraseOk 0
  if e.1 then
    let w := pageLoop pageOk 0 DIRECTORY_BYTES
    (w.1, e.2 ++ w.2)
  else (false, e.2)

/-- `findFileEntry`: index of the first ACTIVE slot whose name buffer
matches the requested name under `equalsIgnoreCase` — called, as in the
source, with `str1Len = MAX_FILENAME_LENGTH`, the buffer CAPACITY. -/
def findFileEntryIdx (dir : List FileEntry) (name : List Nat) : Option Nat :=
  dir.findIdx? (fun e =>
    e.status == STATUS_ACTIVE && equalsIgnoreCase e.filename MAX_FILENAME_LENGTH name)

/-- `findEmptyEntry`: index of the first EMPTY or DELETED slot. -/
def findEmptyIdx (dir : List FileEntry) : Option Nat :=
  dir.findIdx? (fun e => e.status == STATUS_EMPTY || e.status == STATUS_DELETED)

/-- `getSectorCount`: ceiling division of a byte size by the sector
size. -/
def getSectorCount (sizeBytes : Nat) : Nat :=
  (sizeBytes + EEPROM_SECTOR_SIZE - 1) / EEPROM_SECTOR_SIZE

/-- `validateFileEntry`: size/complement match (32-bit bitwise NOT),
start sector within `[DATA_START_SECTOR, TOTAL_SECTORS)`, and a
non-empty name.  Note that the source does NOT check that the extent
END `startSector + getSectorCount sizeBytes` stays within the chip. -/
def validateFileEntry (e : FileEntry) : Bool :=
  (e.sizeBytes == e.sizeComplement ^^^ 0xFFFFFFFF) &&
  !(e.startSector < DATA_START_SECTOR) && (e.startSector < TOTAL_SECTORS) &&
  !(safeStrlenB e.filename MAX_FILENAME_LENGTH == 0)

/-- Accumulator of the `loadDirectory` scan. -/
structure DirScan where
  entries : List FileEntry
  totalFiles : Nat
  deletedFiles : Nat
  nextFreeSector : Nat
deriving DecidableEq

/-- One step of the `loadDirectory` loop over a directory slot. -/
def loadDirStep (s : DirScan) (e : FileEntry) : DirScan :=
  if e.status == STATUS_ACTIVE then
    if validateFileEntry e then
      let fileEnd := e.startSector + getSectorCount e.sizeBytes
      { s with entries := s.entries ++ [e],
               totalFiles := s.totalFiles + 1,
               nextFreeSector := if s.nextFreeSector < fileEnd then fileEnd
                                 else s.nextFreeSector }
    else
      { s with entries := s.entries ++ [{ e with status := STATUS_DELETED }],
               deletedFiles := s.deletedFiles + 1 }
  else if e.status == STATUS_DELETED then
    { s with entries := s.entries ++ [e], deletedFiles := s.deletedFiles + 1 }
  else
    { s with entries := s.entries ++ [e] }

/-- `loadDirectory` after a successful directory read: rebuild the
mirror, demoting invalid ACTIVE slots to DELETED, counting files, and
recomputing `nextFreeSector`. -/
def loadDirectoryScan (dir : List FileEntry) : DirScan :=
  dir.foldl loadDirStep
    { entries := [], totalFiles := 0, deletedFiles := 0,
      nextFreeSector := DATA_START_SECTOR }

/-- The repair pass of `fsck` over the RAM mirror: every ACTIVE entry
that fails validation is demoted to DELETED in place. -/
def fsckScan (dir : List FileEntry) : List FileEntry :=
  dir.map (fun e =>
    if e.status == STATUS_ACTIVE && !validateFileEntry e then
      { e with status := STATUS_DELETED }
    else e)

/-- Replace the entry at one directory index. -/
def modifyAt (i : Nat) (f : FileEntry → FileEntry) : List FileEntry → List FileEntry
  | [] => []
  | e :: rest =>
      match i with
      | 0 => f e :: rest
      | j + 1 => e :: modifyAt j f rest

/-- `allocateSectors`: bump allocation at `nextFreeSector`; when the
tail of the chip is too small, `defragment()` is a stub returning
false, so the allocation fails (the source returns the sentinel 0). -/
def allocateSectors (st : EState) (sizeBytes : Nat) : Option (Nat × EState) :=
  let sectorsNeeded := getSectorCount sizeBytes
  if TOTAL_SECTORS < st.nextFreeSector + sectorsNeeded then none
  else some (st.nextFreeSector,
             { st with nextFreeSector := st.nextFreeSector + sectorsNeeded })

/-- `freeSectors`: erase every sector of the extent (results ignored);
it does NOT move `nextFreeSector` back. -/
def freeSectors (eraseOk : Nat → Bool) (startSector sizeBytes : Nat) : List FlashOp :=
  ((List.range (getSectorCount sizeBytes)).map
    (fun i => (eraseSectorM eraseOk (startSector + i)).2)).flatten

/-- `deleteFile`: mark the slot DELETED, fix the counters, persist the
directory (the mirror keeps its changes even when persisting fails). -/
def deleteFileM (eraseOk pageOk : Nat → Bool) (st : EState) (name : List Nat) :
    EState × Bool × List FlashOp :=
  match findFileEntryIdx st.directory name with
  | none => (st, false, [])
  | some i =>
      let st1 := { st with
        directory := modifyAt i (fun e => { e with status := STATUS_DELETED }) st.directory,
        totalFiles := st.totalFiles - 1,
        deletedFiles := st.deletedFiles + 1 }
      let sv := saveDirectory eraseOk pageOk
      (st1, sv.1, sv.2)

/-- `writeFile` on an initialized plugin: delete an existing file of
the same name, grab a free slot, allocate the extent, program the data
page by page (with NO prior erase of the data sectors), then update the
slot and persist the directory.  Returns the new state, the returned
byte count (0 on failure), and the flash operation trace. -/
def writeFile (eraseOk pageOk : Nat → Bool) (st : EState) (name data : List Nat) :
    EState × Nat × List FlashOp :=
  if data.length == 0 then (st, 0, [])
  else
    let existing := findFileEntryIdx st.directory name
    let st1 := match existing with
      | some _ => (deleteFileM eraseOk pageOk st name).1
      | none => st
    let tr1 : List FlashOp := match existing with
      | some _ => (deleteFileM eraseOk pageOk st name).2.2
      | none => []
    match findEmptyIdx st1.directory with
    | none => (st1, 0, tr1)
    | some i =>
        match allocateSectors st1 data.length with
        | none => (st1, 0, tr1)
        | some (startSector, st2) =>
            let w := pageLoop pageOk (startSector * EEPROM_SECTOR_SIZE) data.length
            if w.1 then
              let st3 := { st2 with
                directory := modifyAt i (fun e =>
                  { e with
                    filename := safeCopyB e.filename MAX_FILENAME_LENGTH name,
                    startSector := startSector,
                    sizeBytes := data.length,
                    sizeComplement := data.length ^^^ 0xFFFFFFFF,
                    status := STATUS_ACTIVE }) st2.directory }
              let sv := saveDirectory eraseOk pageOk
              if sv.1 then
                ({ st3 with totalFiles := st3.totalFiles + 1 }, data.length,
                 tr1 ++ w.2 ++ sv.2)
              else
                (st3, 0, tr1 ++ w.2 ++ sv.2 ++
                  freeSectors eraseOk startSector data.length)
            else
              (st2, 0, tr1 ++ w.2 ++ freeSectors eraseOk startSector data.length)

/-- Default slot used to read a directory index. -/
def emptySlot : FileEntry :=
  { filename := List.replicate 8 0, startSector := 0, sizeBytes := 0,
    sizeComplement := 0, status := STATUS_EMPTY }

/-- `readFile` on an initialized plugin: look the name up and return
the number of bytes read, `min sizeBytes maxSize` (the SPI read itself
always succeeds); 0 when the lookup fails. -/
def readFile (st : EState) (name : List Nat) (maxSize : Nat) : Nat :=
  if maxSize == 0 then 0
  else
    match findFileEntryIdx st.directory name with
    | none => 0
    | some i => min ((st.directory.getD i emptySlot).sizeBytes) maxSize

/-- `format`: all 64 slots EMPTY with zeroed name buffers, counters and
the allocation pointer reset (the persisted image is the same mirror). -/
def formatState : EState :=
  { directory := List.replicate MAX_FILES emptySlot,
    nextFreeSector := DATA_START_SECTOR, totalFiles := 0, deletedFiles := 0 }

/-- `listFiles` with a large enough caller array: the names of the
ACTIVE slots in directory order. -/
def listFilesNames (st : EState) : List (List Nat) :=
  (st.directory.filter (fun e => e.status == STATUS_ACTIVE)).map (·.filename)

end EEPROMStoragePlugin

/-! ## RingBuffer and ParallelPortManager — the IEEE-1284 receiver

The queue is modelled as the list of pending bytes (front = next byte
to pop) together with the latched overflow flag; the capacity is a
parameter so that both the production value (`RING_BUFFER_SIZE = 96`)
and the unit-test capacity 16 of the specification scenario can be
instantiated.  The interrupt handler additionally produces the ordered
trace of its externally visible actions (pin writes and the enqueue
attempt). -/

namespace ParallelPortManager

/-- Receiver state: the ring buffer content and flag plus the counters
maintained by `handleInterrupt` and `update`. -/
structure PState where
  queue : List Nat
  overflowFlag : Bool
  bytesReceived : Nat
  overflowCount : Nat
  totalInterrupts : Nat
  captureEnabled : Bool
deriving DecidableEq

/-- Externally visible steps of the strobe interrupt handler, in
program order: assert BUSY, read the data pins, attempt the enqueue,
drive nACK low then high (the 20 microsecond acknowledge pulse), and
finally release BUSY. -/
inductive IsrEvent where
  | busyHigh
  | readData
  | enqueue (ok : Bool)
  | ackLow
  | ackHigh
  | busyLow
deriving DecidableEq

/-- `RingBuffer::write`: on a full buffer latch the overflow flag and
drop the byte, otherwise append at the head. -/
def ringWrite (cap : Nat) (q : List Nat) (flag : Bool) (b : Nat) :
    List Nat × Bool × Bool :=
  if cap ≤ q.length then (q, true, false)
  else (q ++ [b], flag, true)

/-- `ParallelPortManager::handleInterrupt` for a strobe that latches
data byte `b`: returns the new state and the event trace.  With capture
disabled (or before initialization) the handler returns immediately and
nothing at all happens. -/
def handleInterrupt (cap : Nat) (st : PState) (b : Nat) : PState × List IsrEvent :=
  if st.captureEnabled then
    let w := ringWrite cap st.queue st.overflowFlag b
    ({ st with
        queue := w.1,
        overflowFlag := w.2.1,
        bytesReceived := if w.2.2 then st.bytesReceived + 1 else st.bytesReceived,
        totalInterrupts := st.totalInterrupts + 1 },
     [IsrEvent.busyHigh, IsrEvent.readData, IsrEvent.enqueue w.2.2,
      IsrEvent.ackLow, IsrEvent.ackHigh, IsrEvent.busyLow])
  else (st, [])

/-- `ParallelPortManager::update`: when the ring buffer reports an
overflow, bump `overflowCount` once and clear the flag. -/
def updateTick (st : PState) : PState :=
  if st.overflowFlag then
    { st with overflowCount := st.overflowCount + 1, overflowFlag := false }
  else st

/-- A fresh enabled receiver (after `initialize`). -/
def initialState : PState :=
  { queue := [], overflowFlag := false, bytesReceived := 0,
    overflowCount := 0, totalInterrupts := 0, captureEnabled := true }

/-- A burst of strobes with no consumer running in between. -/
def strobeRun (cap : Nat) (st : PState) (bytes : List Nat) : PState :=
  bytes.foldl (fun s b => (handleInterrupt cap s b).1) st

end ParallelPortManager

/-! ## FileSystemManager — routing, validation, auto-selection, copy -/

namespace FileSystemManager

/-- The backend identities (`IStoragePlugin::StorageType`) that
`getPluginByType` resolves to a registered plugin. -/
inductive StorageType where
  | sdCard
  | eeprom
  | serialPort
deriving DecidableEq

/-- `autoDetectStorage`: SD card first, then EEPROM, then Serial, with
SD card as the default fallback. -/
def autoDetectStorage (ready : StorageType → Bool) : StorageType :=
  if ready StorageType.sdCard then StorageType.sdCard
  else if ready StorageType.eeprom then StorageType.eeprom
  else if ready StorageType.serialPort then StorageType.serialPort
  else StorageType.sdCard

/-- `setStorageType` on a system whose three plugins are registered:
switch only when the requested backend is ready. -/
def setStorageType (ready : StorageType → Bool) (cur req : StorageType) : StorageType :=
  if ready req then req else cur

/-- `update` on an initialized manager with a selected backend: when
the current backend is no longer ready, re-run auto-detection and
switch if the detected type differs and is ready. -/
def updateSelection (ready : StorageType → Bool) (cur : StorageType) : StorageType :=
  if ready cur then cur
  else
    let newType := autoDetectStorage ready
    if newType ≠ cur then setStorageType ready cur newType else cur

/-- `isValidFilename`: the name measured by `safeStrlen(filename,
MAX_FILENAME_LENGTH)` must be non-empty and strictly shorter than the
8-byte limit, and contain no control bytes and none of the characters
/ \ : * ? " < > | (byte values 47 92 58 42 63 34 60 62 124). -/
def isValidFilename (name : List Nat) : Bool :=
  let len := min name.length MAX_FILENAME_LENGTH
  !(len == 0) && !(MAX_FILENAME_LENGTH ≤ len) &&
    (name.take len).all (fun b =>
      !(b < 32 || b == 47 || b == 92 || b == 58 || b == 42 || b == 63 ||
        b == 34 || b == 60 || b == 62 || b == 124))

/-- The uniform storage interface (`IStoragePlugin`) through which
`copyFile` talks to its source and destination: each backend is a
state type with the five operations `copyFile` dispatches to. -/
structure PluginM (σ : Type) where
  isReady : σ → Bool
  fileExists : σ → List Nat → Bool
  getFileSize : σ → List Nat → Nat
  readBytes : σ → List Nat → Nat → List Nat
  writeBytes : σ → List Nat → List Nat → σ × Nat

/-- `copyFile(filename, sourceType, destType)` on a manager with all
three plugins registered: the guard chain of the source in order —
equal kinds, readiness of both plugins, existence of the source file,
size in `(0, TRANSFER_BUFFER_SIZE]`, a full read into the transfer
buffer — and only then the destination write. -/
def copyFile {σ₁ σ₂ : Type} (src : PluginM σ₁) (dst : PluginM σ₂)
    (s₁ : σ₁) (s₂ : σ₂) (sourceType destType : StorageType) (name : List Nat) :
    Bool × σ₂ :=
  if sourceType = destType then (false, s₂)
  else if !(src.isReady s₁) || !(dst.isReady s₂) then (false, s₂)
  else if !(src.fileExists s₁ name) then (false, s₂)
  else if src.getFileSize s₁ name == 0 ||
          decide (TRANSFER_BUFFER_SIZE < src.getFileSize s₁ name) then (false, s₂)
  else if (src.readBytes s₁ name (src.getFileSize s₁ name)).length ≠
          src.getFileSize s₁ name then (false, s₂)
  else if (dst.writeBytes s₂ name
             (src.readBytes s₁ name (src.getFileSize s₁ name))).2 ≠
          (src.readBytes s₁ name (src.getFileSize s₁ name)).length then
    (false, (dst.writeBytes s₂ name
               (src.readBytes s₁ name (src.getFileSize s₁ name))).1)
  else (true, (dst.writeBytes s₂ name
                 (src.readBytes s₁ name (src.getFileSize s₁ name))).1)

end FileSystemManager

/-! ## The main-loop capture path (`processParallelPortData`)

Each loop tick reads at most one byte from the receiver (the data
buffer is a single byte), formats `"data_%04d.bin"` with a counter
into a `MAX_FILENAME_LENGTH` = 8 byte buffer — `snprintf` truncates the
13-character name to 7 characters — and writes that one byte through
`FileSystemManager::writeFile`, which validates the name and dispatches
to the selected backend (here the EEPROM plugin, the scenario having
the NOR selected). -/

namespace CapturePath

open EEPROMStoragePlugin FileSystemManager

/-- Decimal digits of `n` as bytes (`%d`). -/
def decimalBytes (n : Nat) : List Nat :=
  (toString n).toList.map Char.toNat

/-- `snprintf(filename, sizeof(filename), "data_%04d.bin", counter)`
with `sizeof(filename) = MAX_FILENAME_LENGTH = 8`: the formatted string
truncated to 7 characters.  Byte values: d=100 a=97 t=116 _=95 .=46
b=98 i=105 n=110, digits 48..57. -/
def filenameFor (counter : Nat) : List Nat :=
  let digits := decimalBytes counter
  let padded := List.replicate (4 - digits.length) 48 ++ digits
  (([100, 97, 116, 97, 95] ++ padded ++ [46, 98, 105, 110]).take
    (MAX_FILENAME_LENGTH - 1))

/-- `FileSystemManager::writeFile` with the EEPROM backend selected and
ready: validate the name, then dispatch.  Returns the new plugin state
and the byte count reported to the caller. -/
def fsWriteFile (eraseOk pageOk : Nat → Bool) (st : EState) (name data : List Nat) :
    EState × Nat :=
  if data.length == 0 then (st, 0)
  else if isValidFilename name then
    let w := EEPROMStoragePlugin.writeFile eraseOk pageOk st name data
    (w.1, w.2.1)
  else (st, 0)

/-- One tick of `processParallelPortData` with at least one byte
pending: pop one byte, generate the next filename, write it. -/
def captureTick (eraseOk pageOk : Nat → Bool) (st : EState) (counter : Nat) (b : Nat) :
    EState × Nat :=
  ((fsWriteFile eraseOk pageOk st (filenameFor counter) [b]).1, counter + 1)

/-- The capture loop over a byte sequence, starting from file counter 1
as the source does. -/
def captureRun (eraseOk pageOk : Nat → Bool) (st : EState) (counter : Nat) :
    List Nat → EState × Nat
  | [] => (st, counter)
  | b :: rest =>
      let s := captureTick eraseOk pageOk st counter b
      captureRun eraseOk pageOk s.1 s.2 rest

end CapturePath

/-! ## Concrete scenario inputs used by the theorems below -/

/-- A flash whose every program and erase operation succeeds. -/
def allOk : Nat → Bool := fun _ => true

/-- A flash on which every page program fails (exercising the write
failure path). -/
def noPages : Nat → Bool := fun _ => false

/-- The one-character filename "A". -/
def fileA : List Nat := [65]

/-- The truncated capture filename "data_00" as a byte string. -/
def dataName : List Nat := [100, 97, 116, 97, 95, 48, 48]

/-- The stored 8-byte name buffer holding "data_00". -/
def dataNameBuf : List Nat := [100, 97, 116, 97, 95, 48, 48, 0]

/-- Writing the single byte 0x41 to file "A" on a freshly formatted
filesystem with perfect hardware. -/
def writeA : EEPROMStoragePlugin.EState × Nat × List EEPROMStoragePlugin.FlashOp :=
  EEPROMStoragePlugin.writeFile allOk allOk EEPROMStoragePlugin.formatState fileA [0x41]

/-- The specification scenario S1: the bytes "Hi\n" captured through
three run-loop ticks on a freshly formatted NOR filesystem. -/
def captureHi : EEPROMStoragePlugin.EState :=
  (CapturePath.captureRun allOk allOk EEPROMStoragePlugin.formatState 1
    [0x48, 0x69, 0x0A]).1

/-- A directory slot that passes `validateFileEntry` but whose extent
runs past the end of the chip: start sector 4095 with a two-sector
(8192-byte) size. -/
def badEntry : EEPROMStoragePlugin.FileEntry :=
  { filename := 120 :: List.replicate 7 0, startSector := 4095, sizeBytes := 8192,
    sizeComplement := 8192 ^^^ 0xFFFFFFFF, status := STATUS_ACTIVE }

/-- A fully valid ACTIVE directory slot (start sector 1, one byte). -/
def goodEntry : EEPROMStoragePlugin.FileEntry :=
  { filename := 120 :: List.replicate 7 0, startSector := 1, sizeBytes := 1,
    sizeComplement := 1 ^^^ 0xFFFFFFFF, status := STATUS_ACTIVE }

/-- A 64-slot directory image whose first slot is `badEntry`. -/
def dirWithBad : List EEPROMStoragePlugin.FileEntry :=
  badEntry :: List.replicate 63 EEPROMStoragePlugin.emptySlot

/-- A receiver whose 16-byte queue is already full. -/
def fullReceiver : ParallelPortManager.PState :=
  { queue := List.replicate 16 0, overflowFlag := false, bytesReceived := 16,
    overflowCount := 0, totalInterrupts := 16, captureEnabled := true }

/-- The specification scenario S2: 20 back-to-back strobes delivering
the bytes 0..19 into an empty queue of capacity 16, no consumer runs. -/
def strobe20 : ParallelPortManager.PState :=
  ParallelPortManager.strobeRun 16 ParallelPortManager.initialState (List.range 20)

/-- A readiness probe on which only the EEPROM backend is ready. -/
def readyOnlyEeprom : FileSystemManager.StorageType → Bool :=
  fun t => match t with
    | FileSystemManager.StorageType.eeprom => true
    | _ => false

/-- A stateless storage backend with no files, used to instantiate the
router-level copy theorem. -/
def unitPlugin : FileSystemManager.PluginM Unit :=
  { isReady := fun _ => true, fileExists := fun _ _ => false,
    getFileSize := fun _ _ => 0, readBytes := fun _ _ _ => [],
    writeBytes := fun s _ d => (s, d.length) }

/-! # Theorems -/

open SerialStoragePlugin EEPROMStoragePlugin ParallelPortManager FileSystemManager CapturePath

/-! ## C9 — automatic backend selection -/

/-- C9: automatic backend selection resolves in the fixed priority
order SD if ready, else NOR (EEPROM) if ready, else hex (Serial) if
ready, else SD as the stable default; and on an update tick whose
currently selected backend is not ready, the auto policy is re-run and
the selection switches to the newly resolved backend whenever that
backend is ready. -/
theorem auto_selection_policy (ready : StorageType → Bool) (cur : StorageType) :
    (ready StorageType.sdCard = true →
       autoDetectStorage ready = StorageType.sdCard) ∧
    (ready StorageType.sdCard = false → ready StorageType.eeprom = true →
       autoDetectStorage ready = StorageType.eeprom) ∧
    (ready StorageType.sdCard = false → ready StorageType.eeprom = false →
       ready StorageType.serialPort = true →
       autoDetectStorage ready = StorageType.serialPort) ∧
    (ready StorageType.sdCard = false → ready StorageType.eeprom = false →
       ready StorageType.serialPort = false →
       autoDetectStorage ready = StorageType.sdCard) ∧
    (ready cur = false → ready (autoDetectStorage ready) = true →
       updateSelection ready cur = autoDetectStorage ready) := by
  refine ⟨?_, ?_, ?_, ?_, ?_⟩
  · intro h
    simp [autoDetectStorage, h]
  · intro h1 h2
    simp [autoDetectStorage, h1, h2]
  · intro h1 h2 h3
    simp [autoDetectStorage, h1, h2, h3]
  · intro h1 h2 h3
    simp [autoDetectStorage, h1, h2, h3]
  · intro hcur hnew
    have hne : autoDetectStorage ready ≠ cur := by
      intro h
      rw [h] at hnew
      rw [hnew] at hcur
      simp at hcur
    simp [updateSelection, hcur, hne, setStorageType, hnew]

/-- Witness for C9: with only the EEPROM backend ready and SD
selected, the update tick switches the selection to the EEPROM. -/
theorem auto_selection_policy_witness :
    updateSelection readyOnlyEeprom StorageType.sdCard = StorageType.eeprom := by
  have h := auto_selection_policy readyOnlyEeprom StorageType.sdCard
  have hdet : autoDetectStorage readyOnlyEeprom = StorageType.eeprom :=
    h.2.1 rfl rfl
  have hupd := h.2.2.2.2 rfl (by rw [hdet]; rfl)
  rw [hupd, hdet]

/-! ## C10 — guard conditions of the cross-backend copy -/

/-- C10: `FileSystemManager::copyFile` returns false and leaves the
destination backend state untouched whenever the source and destination
kinds are equal, or the source file does not exist, or its size is 0,
or its size exceeds the 32-byte transfer buffer. -/
theorem copy_guard_rejections {σ₁ σ₂ : Type} (src : PluginM σ₁) (dst : PluginM σ₂)
    (s₁ : σ₁) (s₂ : σ₂) (sourceType destType : StorageType) (name : List Nat)
    (h : sourceType = destType ∨ src.fileExists s₁ name = false ∨
         src.getFileSize s₁ name = 0 ∨
         TRANSFER_BUFFER_SIZE < src.getFileSize s₁ name) :
    (copyFile src dst s₁ s₂ sourceType destType name).1 = false ∧
    (copyFile src dst s₁ s₂ sourceType destType name).2 = s₂ := by
  unfold copyFile
  split_ifs with h1 h2 h3 h4 h5 h6 <;> try exact ⟨rfl, rfl⟩
  all_goals exfalso
  all_goals rcases h with h | h | h | h <;> simp_all

/-- Witness for C10: copying between two backends of the same kind is
rejected without touching the destination. -/
theorem copy_guard_rejections_witness :
    (copyFile unitPlugin unitPlugin () () StorageType.eeprom StorageType.eeprom
       fileA).1 = false ∧
    (copyFile unitPlugin unitPlugin () () StorageType.eeprom StorageType.eeprom
       fileA).2 = () :=
  copy_guard_rejections unitPlugin unitPlugin () () StorageType.eeprom
    StorageType.eeprom fileA (Or.inl rfl)

/-! ## C8 — ISR handshake order -/

/-- C8: every execution of the strobe ISR with capture enabled performs
exactly this sequence of externally visible steps — assert BUSY, read
the data pins, attempt the enqueue, pulse nACK low then high, and only
then release BUSY — so BUSY is released only after the enqueue attempt
has completed and nACK has returned high, and the full handshake
happens even when the queue is full and the byte is dropped (the
enqueue event then carries `ok = false`). -/
theorem isr_handshake_order (cap : Nat) (st : PState) (b : Nat)
    (h : st.captureEnabled = true) :
    (handleInterrupt cap st b).2 =
      [IsrEvent.busyHigh, IsrEvent.readData,
       IsrEvent.enqueue (decide (st.queue.length < cap)), IsrEvent.ackLow,
       IsrEvent.ackHigh, IsrEvent.busyLow] := by
  simp only [handleInterrupt, ringWrite, h, if_true]
  split_ifs with hq
  · simp [decide_eq_false (by omega : ¬ st.queue.length < cap)]
  · simp [decide_eq_true (by omega : st.queue.length < cap)]

/-- Witness for C8: on a full 16-byte queue the trace still runs the
whole handshake, with the byte dropped. -/
theorem isr_handshake_order_witness :
    (handleInterrupt 16 fullReceiver 7).2 =
      [IsrEvent.busyHigh, IsrEvent.readData, IsrEvent.enqueue false,
       IsrEvent.ackLow, IsrEvent.ackHigh, IsrEvent.busyLow] := by
  have h := isr_handshake_order 16 fullReceiver 7 rfl
  simpa using h

/-! ## C7 — overflow accounting of the receiver -/

/-- Counterexample for C7: after 20 strobes into an empty queue of
capacity 16 with no consumer running, the overflow counter is 0, not 4
— the ISR does not touch `overflowCount` at all (16 bytes are enqueued,
the flag is latched, and all 20 interrupts are counted). -/
theorem strobe_overflow_counterexample :
    ¬ strobe20.overflowCount = 4 ∧ strobe20.overflowCount = 0 ∧
    strobe20.queue.length = 16 ∧ strobe20.overflowFlag = true ∧
    strobe20.totalInterrupts = 20 := by decide

/-- C7 (amended): a strobe arriving while the queue is full latches the
queue overflow flag and drops the byte, leaving the queue, the byte
counter, and the overflow counter unchanged while still counting the
interrupt; the overflow counter is incremented only by the run-loop
`update()` tick, once per detected latched flag (which it then clears).
Concretely, after 20 strobes into an empty queue of capacity 16 with no
consumer running, 16 bytes are enqueued, `totalInterrupts = 20`, the
flag is latched, and `overflowCount` is still 0; a single update tick
then takes it to 1. -/
theorem strobe_overflow_semantics :
    (∀ (cap : Nat) (st : PState) (b : Nat),
       st.captureEnabled = true → cap ≤ st.queue.length →
       (handleInterrupt cap st b).1.queue = st.queue ∧
       (handleInterrupt cap st b).1.overflowFlag = true ∧
       (handleInterrupt cap st b).1.bytesReceived = st.bytesReceived ∧
       (handleInterrupt cap st b).1.overflowCount = st.overflowCount ∧
       (handleInterrupt cap st b).1.totalInterrupts = st.totalInterrupts + 1) ∧
    (∀ st : PState, st.overflowFlag = true →
       (updateTick st).overflowCount = st.overflowCount + 1 ∧
       (updateTick st).overflowFlag = false) ∧
    (strobe20.queue.length = 16 ∧ strobe20.overflowFlag = true ∧
     strobe20.totalInterrupts = 20 ∧ strobe20.overflowCount = 0 ∧
     (updateTick strobe20).overflowCount = 1) := by
  refine ⟨?_, ?_, by decide⟩
  · intro cap st b hen hfull
    simp [handleInterrupt, ringWrite, hen, hfull]
  · intro st hflag
    simp [updateTick, hflag]

/-- Witness for C7: the full-queue branch evaluated on a concrete full
receiver, and the update tick evaluated on the post-burst state. -/
theorem strobe_overflow_semantics_witness :
    (handleInterrupt 16 fullReceiver 7).1.queue = fullReceiver.queue ∧
    (handleInterrupt 16 fullReceiver 7).1.overflowFlag = true ∧
    (updateTick strobe20).overflowCount = strobe20.overflowCount + 1 := by
  have h1 := strobe_overflow_semantics.1 16 fullReceiver 7 rfl (by decide)
  have h2 := strobe_overflow_semantics.2.1 strobe20 (by decide)
  exact ⟨h1.1, h1.2.1, h2.1⟩

/-! ## C1 — write/read round-trip on the NOR flat filesystem -/

/-- C1: the round-trip fails in the code.  `writeFile` of the one-byte
file "A" on a freshly formatted filesystem returns 1, yet the
subsequent `readFile` of the same name with a large enough destination
returns 0: `findFileEntry` calls `equalsIgnoreCase` with
`str1Len = MAX_FILENAME_LENGTH` (the buffer capacity, 8), and
`equalsIgnoreCase` first requires `strlen(name) == str1Len`, which no
valid (at most 7 character) filename can satisfy — so the lookup never
matches any stored file. -/
theorem write_read_roundtrip_bug :
    writeA.2.1 = 1 ∧
    readFile writeA.1 fileA 1 = 0 ∧
    (writeA.1.directory.filter
       (fun e => e.status == STATUS_ACTIVE)).length = 1 ∧
    findFileEntryIdx writeA.1.directory fileA = none := by decide

/-! ## C4 — erase before write -/

/-- C4: the code never erases the sectors of the newly allocated
extent.  In the flash trace of a successful one-byte `writeFile`, the
payload page at the start of the extent (byte address 4096 = sector 1)
is programmed, the only erase operation targets sector 0 (the directory
sector inside `saveDirectory`), and no erase of any data sector ever
occurs. -/
theorem write_no_data_erase :
    writeA.2.1 = 1 ∧
    writeA.2.2.any (fun op =>
      match op with
      | FlashOp.prog a l => a == 4096 && l == 1
      | FlashOp.erase _ => false) = true ∧
    writeA.2.2.all (fun op =>
      match op with
      | FlashOp.erase s => s == 0
      | FlashOp.prog _ _ => true) = true := by decide

/-! ## C5 — state after a failed data write -/

/-- Counterexample for C5: on a freshly formatted filesystem, a
one-byte write whose page program fails returns 0, but
`nextFreeSector` is NOT restored — it remains advanced from 1 to 2, so
the allocation state differs from the state before the call. -/
theorem write_failure_counterexample :
    (writeFile allOk noPages formatState fileA [0x41]).2.1 = 0 ∧
    (writeFile allOk noPages formatState fileA [0x41]).1.nextFreeSector = 2 ∧
    formatState.nextFreeSector = 1 ∧
    ¬ (writeFile allOk noPages formatState fileA [0x41]).1.nextFreeSector =
        formatState.nextFreeSector := by decide

/-- C5 (amended): if a page write fails during `writeFile` of a file
whose name is not already present, the call returns 0 and the directory
mirror and counters are unchanged, and the allocated sectors are erased
(`freeSectors`), but the sector reservation is NOT released:
`next_free_sector` remains advanced by `ceil(size/SECTOR)` past the
failed allocation. -/
theorem write_failure_state (eraseOk pageOk : Nat → Bool) (st : EState)
    (name data : List Nat) (i : Nat)
    (hne : data ≠ [])
    (hfind : findFileEntryIdx st.directory name = none)
    (hempty : findEmptyIdx st.directory = some i)
    (halloc : st.nextFreeSector + getSectorCount data.length ≤ TOTAL_SECTORS)
    (hfail : (pageLoop pageOk (st.nextFreeSector * EEPROM_SECTOR_SIZE)
                data.length).1 = false) :
    writeFile eraseOk pageOk st name data =
      ({ st with nextFreeSector := st.nextFreeSector + getSectorCount data.length },
       0,
       (pageLoop pageOk (st.nextFreeSector * EEPROM_SECTOR_SIZE) data.length).2 ++
         freeSectors eraseOk st.nextFreeSector data.length) := by
  have hlen : data.length ≠ 0 := by
    intro h
    exact hne (List.eq_nil_of_length_eq_zero h)
  unfold writeFile
  simp only [hfind, hempty, allocateSectors, beq_iff_eq, hlen, if_false,
    Nat.not_lt.mpr halloc, if_neg (Nat.not_lt.mpr halloc), hfail]
  simp [hlen, hfail]

/-- Witness for C5: the amended statement evaluated on the concrete
failing write of the counterexample scenario. -/
theorem write_failure_state_witness :
    writeFile allOk noPages formatState fileA [0x41] =
      ({ formatState with nextFreeSector := 2 },
       0,
       (pageLoop noPages (formatState.nextFreeSector * EEPROM_SECTOR_SIZE) 1).2 ++
         freeSectors allOk formatState.nextFreeSector 1) := by
  have h := write_failure_state allOk noPages formatState fileA [0x41] 0
    (by decide) (by decide) (by decide) (by decide) (by decide)
  simpa using h

/-! ## C2 — the capture scenario S1 -/

/-- C2: what the capture path actually produces for the three bytes
"Hi\n".  `snprintf` truncates every generated name `data_NNNN.bin` to
the 7 characters "data_00" (the filename buffer is
`MAX_FILENAME_LENGTH` = 8 bytes), each run-loop tick stores a single
byte (the data buffer is one byte), and because the broken
`findFileEntry` lookup never matches, the existing file is never
replaced: the result is THREE active one-byte files, all named
"data_00", holding 0x48, 0x69 and 0x0A, and a `readFile` of
"data_00" returns 0 bytes. -/
theorem capture_scenario_bug :
    filenameFor 1 = dataName ∧ filenameFor 2 = dataName ∧
    (captureHi.directory.filter (fun e => e.status == STATUS_ACTIVE)).length = 3 ∧
    (captureHi.directory.filter (fun e => e.status == STATUS_ACTIVE)).all
      (fun e => e.filename == dataNameBuf && e.sizeBytes == 1) = true ∧
    (captureHi.directory.filter (fun e => e.status == STATUS_ACTIVE)).map
      (fun e => e.startSector) = [1, 2, 3] ∧
    readFile captureHi dataName 3 = 0 := by decide

/-! ## C6 — the ACTIVE-entry invariant after mount and fsck -/

/-- Counterexample for C6: a directory whose first slot has a valid
complement, a valid name and start sector 4095, but a two-sector size,
survives `loadDirectory` as ACTIVE although its extent end 4097
exceeds `TOTAL_SECTORS` = 4096 — the source checks only
`startSector < TOTAL_SECTORS`, not the extent end. -/
theorem mount_bound_counterexample :
    (loadDirectoryScan dirWithBad).entries.head? = some badEntry ∧
    badEntry.status = STATUS_ACTIVE ∧
    TOTAL_SECTORS < badEntry.startSector + getSectorCount badEntry.sizeBytes := by
  decide

/-- `validateFileEntry` in propositional form. -/
theorem validateFileEntry_spec (e : FileEntry) (h : validateFileEntry e = true) :
    e.sizeBytes ^^^ e.sizeComplement = 0xFFFFFFFF ∧
    DATA_START_SECTOR ≤ e.startSector ∧ e.startSector < TOTAL_SECTORS ∧
    safeStrlenB e.filename MAX_FILENAME_LENGTH ≠ 0 := by
  simp only [validateFileEntry, Bool.and_eq_true, beq_iff_eq, Bool.not_eq_true,
    decide_eq_true_eq, Bool.not_eq_eq_eq_not, Bool.not_true, decide_eq_false_iff_not,
    Nat.not_lt] at h
  obtain ⟨⟨⟨h1, h2⟩, h3⟩, h4⟩ := h
  refine ⟨?_, h2, h3, by simpa using h4⟩
  rw [h1, Nat.xor_comm e.sizeComplement 0xFFFFFFFF, Nat.xor_assoc,
    Nat.xor_self, Nat.xor_zero]

/-- The `loadDirectory` fold keeps only validated entries ACTIVE. -/
theorem loadDirectoryScan_active_valid (dir : List FileEntry) :
    ∀ e ∈ (loadDirectoryScan dir).entries, e.status = STATUS_ACTIVE →
      validateFileEntry e = true := by
  suffices h : ∀ (acc : DirScan),
      (∀ e ∈ acc.entries, e.status = STATUS_ACTIVE → validateFileEntry e = true) →
      ∀ e ∈ (dir.foldl loadDirStep acc).entries, e.status = STATUS_ACTIVE →
        validateFileEntry e = true by
    exact h _ (by intro e he; simp at he)
  induction dir with
  | nil => intro acc hacc; simpa using hacc
  | cons x xs ih =>
      intro acc hacc
      simp only [List.foldl_cons]
      refine ih (loadDirStep acc x) ?_
      intro e he hst
      unfold loadDirStep at he
      split_ifs at he with hA hV hD <;> simp only [List.mem_append,
        List.mem_singleton] at he
      · rcases he with he | he
        · exact hacc e he hst
        · subst he; exact hV
      · rcases he with he | he
        · exact hacc e he hst
        · subst he; simp [STATUS_DELETED, STATUS_ACTIVE] at hst
      · rcases he with he | he
        · exact hacc e he hst
        · subst he
          rw [hst] at hA
          simp at hA
      · rcases he with he | he
        · exact hacc e he hst
        · subst he
          rw [hst] at hA
          simp at hA

/-- C6 (amended): after `loadDirectory` and after the `fsck` repair
pass, every ACTIVE entry of the directory mirror satisfies
`size XOR size_complement = 0xFFFFFFFF`, `DATA_START ≤ start_sector`
and `start_sector < TOTAL_SECTORS`, and has a non-empty name; the
extent-end bound `start_sector + ceil(size/SECTOR) ≤ TOTAL_SECTORS` of
the original claim is NOT enforced by the code (see the
counterexample). -/
theorem mount_fsck_active_invariant (dir : List FileEntry) :
    (∀ e ∈ (loadDirectoryScan dir).entries, e.status = STATUS_ACTIVE →
       e.sizeBytes ^^^ e.sizeComplement = 0xFFFFFFFF ∧
       DATA_START_SECTOR ≤ e.startSector ∧ e.startSector < TOTAL_SECTORS ∧
       safeStrlenB e.filename MAX_FILENAME_LENGTH ≠ 0) ∧
    (∀ e ∈ fsckScan dir, e.status = STATUS_ACTIVE →
       e.sizeBytes ^^^ e.sizeComplement = 0xFFFFFFFF ∧
       DATA_START_SECTOR ≤ e.startSector ∧ e.startSector < TOTAL_SECTORS ∧
       safeStrlenB e.filename MAX_FILENAME_LENGTH ≠ 0) := by
  constructor
  · intro e he hst
    exact validateFileEntry_spec e (loadDirectoryScan_active_valid dir e he hst)
  · intro e he hst
    simp only [fsckScan, List.mem_map] at he
    obtain ⟨x, hmem, hx⟩ := he
    have hv : validateFileEntry e = true := by
      by_cases hc : (x.status == STATUS_ACTIVE && !validateFileEntry x) = true
      · rw [if_pos hc] at hx
        rw [← hx] at hst
        simp [STATUS_DELETED, STATUS_ACTIVE] at hst
      · rw [if_neg hc] at hx
        rw [← hx]
        rw [← hx] at hst
        simp only [Bool.and_eq_true, beq_iff_eq, not_and, Bool.not_eq_true] at hc
        by_contra hfneq
        have hfalse : validateFileEntry x = false := by simpa using hfneq
        have hcc := hc hst
        rw [hfalse] at hcc
        simp at hcc
    exact validateFileEntry_spec e hv

/-- Witness for C6: the invariant evaluated on the one-entry directory
holding `goodEntry`. -/
theorem mount_fsck_active_invariant_witness :
    goodEntry.sizeBytes ^^^ goodEntry.sizeComplement = 0xFFFFFFFF ∧
    DATA_START_SECTOR ≤ goodEntry.startSector := by
  have h := (mount_fsck_active_invariant [goodEntry]).1 goodEntry
    (by decide) (by decide)
  exact ⟨h.1, h.2.1⟩

/-! ## C3 — the hex framing round-trip

Helper lemmas about the encoder and the decoder, then the
counterexample (a 9-byte payload loses its last byte to the space
separator) and the amended round-trip theorem for payloads of at most
8 bytes (which fit on one line with no space separator). -/

/-- Every character taken from the hex table (at any index, with the
default) is a hex table character. -/
theorem getD_mem_table (n : Nat) : hexCharTable.getD n '0' ∈ hexCharTable := by
  by_cases h : n < hexCharTable.length
  · rw [List.getD_eq_getElem hexCharTable '0' h]
    exact List.getElem_mem h
  · rw [List.getD_eq_default hexCharTable '0' (by omega)]
    decide

/-- Characters of the hex table are not CR, LF, colon, or the letters
that start the reserved markers at a position outside the table. -/
theorem table_char_facts :
    ∀ c ∈ hexCharTable, ¬c = '\r' ∧ ¬c = '\n' ∧ ¬c = ':' ∧ ¬c = 'S' ∧
      ¬c = 'G' ∧ ¬c = 'N' := by decide

/-- Both characters produced by `byteToHex` are hex table characters. -/
theorem byteToHex_mem (b : Nat) : ∀ c ∈ byteToHex b, c ∈ hexCharTable := by
  intro c hc
  simp only [byteToHex, List.mem_cons, List.not_mem_nil, or_false] at hc
  rcases hc with rfl | rfl
  · exact getD_mem_table _
  · exact getD_mem_table _

/-- Every character of the space-free hex rendering is a hex table
character. -/
theorem hexJoin_mem (B : List Nat) : ∀ c ∈ hexJoin B, c ∈ hexCharTable := by
  intro c hc
  simp only [hexJoin, List.mem_flatten, List.mem_map] at hc
  obtain ⟨s, ⟨b, _, rfl⟩, hcs⟩ := hc
  exact byteToHex_mem b c hcs

/-- The hex rendering of a byte sequence has two characters per byte. -/
theorem hexJoin_length (B : List Nat) : (hexJoin B).length = 2 * B.length := by
  induction B with
  | nil => rfl
  | cons b rest ih =>
      simp only [hexJoin, List.map_cons, List.flatten_cons, List.length_append,
        List.length_cons]
      simp only [hexJoin] at ih
      simp [byteToHex, ih]
      omega

set_option maxRecDepth 4096 in
/-- `hexToByte` decodes what `byteToHex` encoded, for every byte. -/
theorem hexToByte_byteToHex :
    ∀ b, b < 256 →
      hexToByte (hexCharTable.getD ((b >>> 4) &&& 0x0F) '0')
        (hexCharTable.getD (b &&& 0x0F) '0') = some b := by decide

/-- The `receiveFile` character loop stops as soon as the destination
is full. -/
theorem receiveLoop_full (maxSize : Nat) (input line : List Char) (acc : List Nat)
    (h : maxSize ≤ acc.length) : receiveLoop maxSize input line acc = acc := by
  cases input with
  | nil => rfl
  | cons c rest => simp [receiveLoop, h]

/-- Non-terminator characters are accumulated into the line buffer. -/
theorem receiveLoop_chars (maxSize : Nat) :
    ∀ (cs rest line : List Char) (acc : List Nat),
    (∀ c ∈ cs, ¬c = '\r' ∧ ¬c = '\n') → line.length + cs.length ≤ 255 →
    acc.length < maxSize →
    receiveLoop maxSize (cs ++ rest) line acc =
      receiveLoop maxSize rest (line ++ cs) acc := by
  intro cs
  induction cs with
  | nil =>
      intro rest line acc _ _ _
      simp
  | cons c cs' ih =>
      intro rest line acc h1 h2 h3
      have hc := h1 c (List.mem_cons_self c cs')
      rw [List.cons_append]
      simp only [receiveLoop]
      rw [if_neg (by omega)]
      rw [if_neg (by tauto)]
      rw [if_pos (by simp only [List.length_cons] at h2; omega)]
      rw [ih rest (line ++ [c]) acc
            (fun x hx => h1 x (List.mem_cons_of_mem c hx))
            (by simp only [List.length_append, List.length_cons,
                  List.length_nil] at h2 ⊢; omega) h3]
      rw [List.append_assoc]
      rfl

/-- A carriage return with a non-empty line buffer hands the line to
`processLine` and clears the buffer. -/
theorem receiveLoop_eol (maxSize : Nat) (rest line : List Char) (acc : List Nat)
    (h1 : acc.length < maxSize) (h2 : line ≠ []) :
    receiveLoop maxSize ('\r' :: rest) line acc =
      receiveLoop maxSize rest [] (processLine maxSize acc line) := by
  have hlen : line.length ≠ 0 := by simpa [List.length_eq_zero] using h2
  simp only [receiveLoop]
  rw [if_neg (by omega)]
  simp [hlen]

/-- A line feed with an empty line buffer is skipped. -/
theorem receiveLoop_lf (maxSize : Nat) (rest : List Char) (acc : List Nat)
    (h1 : acc.length < maxSize) :
    receiveLoop maxSize ('\n' :: rest) [] acc = receiveLoop maxSize rest [] acc := by
  simp only [receiveLoop]
  rw [if_neg (by omega)]
  simp

/-- A list is a prefix (in the Boolean sense of `isPrefixOf`) of itself
followed by anything. -/
theorem isPrefixOf_append_self : ∀ (p s : List Char), p.isPrefixOf (p ++ s) = true := by
  intro p s
  induction p with
  | nil => simp [List.isPrefixOf]
  | cons a p' ih => simp [List.isPrefixOf, ih]

/-- One step of `isPrefixOf` on two cons cells. -/
theorem isPrefixOf_cons₂ (a b : Char) (as bs : List Char) :
    (a :: as).isPrefixOf (b :: bs) = (a == b && as.isPrefixOf bs) := rfl

/-- `isPrefixOf` fails when the pattern starts with a character that is
not in the hex table but the text consists of table characters. -/
theorem isPrefixOf_table_false (x : Char) (xs t : List Char)
    (hx : ¬ x ∈ hexCharTable) (ht : ∀ c ∈ t, c ∈ hexCharTable) :
    (x :: xs).isPrefixOf t = false := by
  cases t with
  | nil => rfl
  | cons c t' =>
      have hne : (x == c) = false := by
        rw [beq_eq_false_iff_ne]
        rintro rfl
        exact hx (ht x (List.mem_cons_self x t'))
      simp [List.isPrefixOf, hne]

/-- A space-free hex data line starts with none of the three reserved
markers. -/
theorem hexline_no_marker (B : List Nat) (h0 : B ≠ []) :
    startsWithM (hexJoin B) BEGIN_TOK = false ∧
    startsWithM (hexJoin B) END_TOK = false ∧
    startsWithM (hexJoin B) SIZE_TOK = false := by
  cases B with
  | nil => exact absurd rfl h0
  | cons b B' =>
      have h1 : hexJoin (b :: B') =
          hexCharTable.getD ((b >>> 4) &&& 0x0F) '0' ::
          hexCharTable.getD (b &&& 0x0F) '0' :: hexJoin B' := by
        simp [hexJoin, byteToHex]
      have hc0 := getD_mem_table ((b >>> 4) &&& 0x0F)
      have hc1 := getD_mem_table (b &&& 0x0F)
      have htail := hexJoin_mem B'
      rw [h1]
      refine ⟨?_, ?_, ?_⟩
      · have hG : (['G', 'I', 'N', ':'] : List Char).isPrefixOf (hexJoin B') = false :=
          isPrefixOf_table_false 'G' _ _ (by decide) htail
        simp only [startsWithM, BEGIN_TOK, isPrefixOf_cons₂, hG, Bool.and_false]
      · have hN : (['N', 'D', ':'] : List Char).isPrefixOf
            (hexCharTable.getD (b &&& 0x0F) '0' :: hexJoin B') = false :=
          isPrefixOf_table_false 'N' _ _ (by decide)
            (by intro c hc
                rcases List.mem_cons.mp hc with rfl | hc
                · exact hc1
                · exact htail c hc)
        simp only [startsWithM, END_TOK, isPrefixOf_cons₂, hN, Bool.and_false]
      · have hS : (SIZE_TOK : List Char).isPrefixOf
            (hexCharTable.getD ((b >>> 4) &&& 0x0F) '0' ::
             hexCharTable.getD (b &&& 0x0F) '0' :: hexJoin B') = false :=
          isPrefixOf_table_false 'S' _ _ (by decide)
            (by intro c hc
                rcases List.mem_cons.mp hc with rfl | hc
                · exact hc0
                · rcases List.mem_cons.mp hc with rfl | hc
                  · exact hc1
                  · exact htail c hc)
        simpa [startsWithM, SIZE_TOK] using hS

/-- `findChar` finds no colon in a colon-free line. -/
theorem findCharIdx_none : ∀ (l : List Char), (∀ c ∈ l, ¬ c = ':') →
    findCharIdx l ':' = none := by
  intro l
  induction l with
  | nil => intro _; rfl
  | cons c rest ih =>
      intro h
      have hc := h c (List.mem_cons_self c rest)
      simp only [findCharIdx]
      rw [if_neg hc, ih (fun x hx => h x (List.mem_cons_of_mem c hx))]
      rfl

/-- The fixed-stride pair decoder recovers a space-free hex rendering
exactly. -/
theorem decode_hexJoin : ∀ (B acc : List Nat) (maxSize : Nat),
    (∀ b ∈ B, b < 256) → acc.length + B.length ≤ maxSize →
    decodeHexPairs maxSize acc (hexJoin B) = acc ++ B := by
  intro B
  induction B with
  | nil =>
      intro acc maxSize _ _
      simp [hexJoin, decodeHexPairs]
  | cons b B' ih =>
      intro acc maxSize hb hlen
      have h1 : hexJoin (b :: B') =
          hexCharTable.getD ((b >>> 4) &&& 0x0F) '0' ::
          hexCharTable.getD (b &&& 0x0F) '0' :: hexJoin B' := by
        simp [hexJoin, byteToHex]
      have hdec := hexToByte_byteToHex b (hb b (List.mem_cons_self b B'))
      rw [h1]
      simp only [decodeHexPairs]
      rw [if_pos (by simp only [List.length_cons] at hlen; omega)]
      simp only [hdec]
      rw [ih (acc ++ [b]) maxSize (fun x hx => hb x (List.mem_cons_of_mem b hx))
            (by simp only [List.length_append, List.length_cons,
                  List.length_nil] at hlen ⊢; omega)]
      simp

/-- `processLine` on a space-free hex data line that fits in the
remaining destination space decodes it in full. -/
theorem processLine_dataline (maxSize : Nat) (acc B : List Nat)
    (hB : ∀ b ∈ B, b < 256) (h0 : B ≠ [])
    (hlen : acc.length + B.length ≤ maxSize) :
    processLine maxSize acc (hexJoin B) = acc ++ B := by
  obtain ⟨hb, he, hs⟩ := hexline_no_marker B h0
  unfold processLine
  rw [hb, he, hs]
  simp only [Bool.or_self, Bool.or_false, if_false]
  rw [findCharIdx_none (hexJoin B)
        (fun c hc => (table_char_facts c (hexJoin_mem B c hc)).2.2.1)]
  exact decode_hexJoin B acc maxSize hB hlen

/-- `appendString` appends in full while the 64-character line buffer
has room. -/
theorem appendStringM_no_trunc (buf s : List Char) (h : buf.length + s.length ≤ 63) :
    appendStringM 64 buf s = buf ++ s := by
  unfold appendStringM
  by_cases hs : s = []
  · subst hs
    split_ifs <;> simp
  · have hslen : 0 < s.length := List.length_pos.mpr hs
    rw [if_neg (by omega)]
    congr 1
    exact List.take_of_length_le (by omega)

/-- For a line of at most 8 bytes the `sendHexLine` byte loop inserts
no space and no truncation occurs: the buffer receives exactly the
space-free hex rendering. -/
theorem hexLineLoop_no_space : ∀ (data : List Nat) (buf : List Char) (i size : Nat),
    i + data.length = size → size ≤ 8 → buf.length + 2 * data.length ≤ 63 →
    hexLineLoop 64 buf i size data = buf ++ hexJoin data := by
  intro data
  induction data with
  | nil =>
      intro buf i size _ _ _
      simp [hexLineLoop, hexJoin]
  | cons b rest ih =>
      intro buf i size h1 h2 h3
      simp only [hexLineLoop]
      have hbt : (byteToHex b).length = 2 := rfl
      have ha : appendStringM 64 buf (byteToHex b) = buf ++ byteToHex b :=
        appendStringM_no_trunc buf (byteToHex b)
          (by rw [hbt]; simp only [List.length_cons] at h3; omega)
      have hcond : ((i + 1) % 8 == 0 && decide (i < size - 1)) = false := by
        by_cases h8 : (i + 1) % 8 = 0
        · have hge : ¬ i < size - 1 := by
            simp only [List.length_cons] at h1
            omega
          simp [h8, hge]
        · have : ((i + 1) % 8 == 0) = false := by simpa using h8
          simp [this]
      rw [ha, hcond]
      simp only [Bool.false_eq_true, if_false]
      rw [ih (buf ++ byteToHex b) (i + 1) size
            (by simp only [List.length_cons] at h1; omega) h2
            (by simp only [List.length_append, hbt, List.length_cons] at h3 ⊢
                omega)]
      simp only [hexJoin, List.map_cons, List.flatten_cons, List.append_assoc]

/-- `sendHexLine` on a 1..8-byte slice: exactly the space-free hex
rendering followed by CRLF. -/
theorem sendHexLine_short (B : List Nat) (h0 : B ≠ []) (h8 : B.length ≤ 8) :
    sendHexLine B = hexJoin B ++ CRLF := by
  have hl : ¬ B.length = 0 := fun h => h0 (List.eq_nil_of_length_eq_zero h)
  unfold sendHexLine
  rw [if_neg (by simp [HEX_BYTES_PER_LINE, hl]; omega)]
  rw [hexLineLoop_no_space B [] 0 B.length (by omega) h8 (by simp; omega)]
  simp

/-- A payload of at most one line is streamed as a single
`sendHexLine`. -/
theorem streamChunks_single (B : List Nat) (h0 : B ≠ []) (h32 : B.length ≤ 32) :
    streamChunks B = sendHexLine B := by
  cases B with
  | nil => exact absurd rfl h0
  | cons b rest =>
      have hmin : min (rest.length + 1) HEX_BYTES_PER_LINE = rest.length + 1 := by
        simp only [List.length_cons] at h32
        simp only [HEX_BYTES_PER_LINE]
        omega
      simp only [streamChunks, List.length_cons, streamChunksAux, hmin]
      rw [show (b :: rest).take (rest.length + 1) = b :: rest from
            List.take_of_length_le (by simp)]
      rw [show (b :: rest).drop (rest.length + 1) = [] from
            List.drop_of_length_le (by simp)]
      cases rest with
      | nil => simp [streamChunksAux]
      | cons x xs => simp [streamChunksAux]

/-- Counterexample for C3: a 9-byte payload (nine zero bytes) is framed
with a space after the eighth byte; the receiver decodes only the first
8 bytes — the space desynchronizes its fixed two-character stride and
the ninth byte is lost. -/
theorem hex_roundtrip_counterexample :
    receiveFile (streamFile ['x'] (List.replicate 9 0)) 9 = List.replicate 8 0 ∧
    ¬ receiveFile (streamFile ['x'] (List.replicate 9 0)) 9 =
        List.replicate 9 0 := by decide

/-- C3 (amended): the hex-framing round-trip holds for every payload of
1 to 8 bytes (which is rendered on one line with no space separator):
feeding the exact line stream emitted by `streamFile` into
`receiveFile` with destination capacity `|B|` yields exactly `B`.  For
any longer payload a line holds more than 8 bytes, the emitted space
separator desynchronizes the receiver, and bytes are lost (see the
counterexample).  The filename is any string free of CR and LF — in
particular any name accepted by the router validation. -/
theorem hex_roundtrip_short (name : List Char) (B : List Nat)
    (hname : ∀ c ∈ name, ¬c = '\r' ∧ ¬c = '\n') (hnlen : name.length ≤ 100)
    (hB : B ≠ []) (hB8 : B.length ≤ 8) (hbytes : ∀ b ∈ B, b < 256) :
    receiveFile (streamFile name B) B.length = B := by
  have hBpos : 0 < B.length := List.length_pos.mpr hB
  have hdigAll : ∀ n, 1 ≤ n → n ≤ 8 →
      (∀ c ∈ (toString n).toList, ¬c = '\r' ∧ ¬c = '\n') ∧
      (toString n).toList.length ≤ 3 := by
    intro n h1 h2
    interval_cases n <;> exact ⟨by decide, by decide⟩
  have hdig := hdigAll B.length hBpos hB8
  have hBEGINchars : ∀ c ∈ BEGIN_TOK, ¬c = '\r' ∧ ¬c = '\n' := by decide
  have hSIZEchars : ∀ c ∈ SIZE_TOK, ¬c = '\r' ∧ ¬c = '\n' := by decide
  have hne0 : ¬ (B.length == 0) = true := by
    simp only [beq_iff_eq]
    omega
  have hacc0 : (([] : List Nat)).length < B.length := by
    simp only [List.length_nil]
    omega
  have hchunks : streamChunks B = hexJoin B ++ CRLF :=
    (streamChunks_single B hB (by omega)).trans (sendHexLine_short B hB hB8)
  have hstream : streamFile name B =
      (BEGIN_TOK ++ name) ++ ('\r' :: '\n' ::
        ((SIZE_TOK ++ (toString B.length).toList) ++ ('\r' :: '\n' ::
          (hexJoin B ++ ('\r' :: '\n' ::
            (END_TOK ++ name ++ CRLF)))))) := by
    unfold streamFile
    rw [if_neg hne0]
    rw [protocolHeader, protocolFooter, hchunks]
    simp [CRLF, List.append_assoc]
  rw [receiveFile, if_neg hne0, hstream]
  rw [receiveLoop_chars B.length (BEGIN_TOK ++ name) _ [] []
        (by intro c hc
            rcases List.mem_append.mp hc with h | h
            · exact hBEGINchars c h
            · exact hname c h)
        (by simp only [List.length_append, List.length_nil, BEGIN_TOK,
              List.length_cons]
            omega)
        hacc0]
  simp only [List.nil_append]
  rw [receiveLoop_eol B.length _ _ _ hacc0 (by simp [BEGIN_TOK])]
  rw [show processLine B.length [] (BEGIN_TOK ++ name) = [] by
        simp [processLine, startsWithM, isPrefixOf_append_self]]
  rw [receiveLoop_lf B.length _ _ hacc0]
  rw [receiveLoop_chars B.length (SIZE_TOK ++ (toString B.length).toList) _ [] []
        (by intro c hc
            rcases List.mem_append.mp hc with h | h
            · exact hSIZEchars c h
            · exact hdig.1 c h)
        (by simp only [List.length_append, List.length_nil, SIZE_TOK,
              List.length_cons]
            omega)
        hacc0]
  simp only [List.nil_append]
  rw [receiveLoop_eol B.length _ _ _ hacc0 (by simp [SIZE_TOK])]
  rw [show processLine B.length [] (SIZE_TOK ++ (toString B.length).toList) = [] by
        simp [processLine, startsWithM, isPrefixOf_append_self]]
  rw [receiveLoop_lf B.length _ _ hacc0]
  rw [receiveLoop_chars B.length (hexJoin B) _ [] []
        (by intro c hc
            have := table_char_facts c (hexJoin_mem B c hc)
            exact ⟨this.1, this.2.1⟩)
        (by rw [List.length_nil, hexJoin_length]
            omega)
        hacc0]
  simp only [List.nil_append]
  rw [receiveLoop_eol B.length _ _ _ hacc0
        (by intro h
            have := hexJoin_length B
            rw [h] at this
            simp only [List.length_nil] at this
            omega)]
  rw [processLine_dataline B.length [] B hbytes hB (by simp)]
  simp only [List.nil_append]
  exact receiveLoop_full B.length _ _ B (Nat.le_refl B.length)

/-- Witness for C3: the round-trip on the scenario payload "Hi\n". -/
theorem hex_roundtrip_short_witness :
    receiveFile (streamFile ['x'] [0x48, 0x69, 0x0A]) 3 = [0x48, 0x69, 0x0A] :=
  hex_roundtrip_short ['x'] [0x48, 0x69, 0x0A] (by decide) (by decide)
    (by decide) (by decide) (by decide)

end MegaBridge
